import Mathlib

/-!
Verification of the Attribute Resolution & Burndown Forecasting Engine of the
reverseengineerAPI repository.  The Python source is shallowly embedded: JSON
shaped values become the inductive type `Py`, Python dicts become association
lists with first-key-wins lookup, SQL tables become lists of row structures,
and each relevant Python function or SQL statement becomes a Lean definition
named after it.  Floats that carry measured heights or durations are modelled
as exact rationals.
-/

namespace RevEng

/-- A Python/JSON value as it occurs in the job payloads: None, strings,
ints, bools, floats (as exact rationals), dicts (association lists keyed by
strings, first binding wins as in a Python dict) and lists. -/
inductive Py where
  | none : Py
  | str : String → Py
  | int : Int → Py
  | bool : Bool → Py
  | rat : ℚ → Py
  | dict : List (String × Py) → Py
  | list : List Py → Py

/-- Python truthiness: None, empty strings, zero numbers and empty
containers are falsy, everything else is truthy. -/
def Py.truthy : Py → Bool
  | .none => false
  | .str s => s ≠ ""
  | .int n => n ≠ 0
  | .bool b => b
  | .rat q => q ≠ 0
  | .dict m => !m.isEmpty
  | .list l => !l.isEmpty

/-- Association-list lookup: first binding for the key, as in a Python dict. -/
def alget (m : List (String × Py)) (k : String) : Option Py :=
  (m.find? (fun p => p.1 == k)).map (·.2)

/-- Python d.get(k, default): the stored value (even a stored None) when the
key is present, otherwise the default.  On a value that is not a dict the
Python code would raise; the embedding answers the default, which no modelled
code path reaches with well-shaped input. -/
def Py.getD (p : Py) (k : String) (d : Py) : Py :=
  match p with
  | .dict m => match alget m k with
    | some v => v
    | Option.none => d
  | _ => d

/-- Python d.get(k): as Py.getD with default None. -/
def Py.get (p : Py) (k : String) : Py :=
  p.getD k .none

/-- Python membership test k in d for a dict. -/
def Py.has (p : Py) (k : String) : Bool :=
  match p with
  | .dict m => (alget m k).isSome
  | _ => false

/-- Python v == s for a string literal s: true exactly when v is that
string (a non-string value never equals a string in Python). -/
def pyEqStr (p : Py) (s : String) : Bool :=
  match p with
  | .str t => t == s
  | _ => false

/-- Python v == n for an int literal n: numeric cross-type equality, so
True == 1 and 1.0 == 1 hold as in Python. -/
def pyEqInt (p : Py) (n : Int) : Bool :=
  match p with
  | .int m => m == n
  | .rat q => q == (n : ℚ)
  | .bool b => (if b then (1 : Int) else 0) == n
  | _ => false

/-- Python a or b: a when a is truthy, else b. -/
def pyOr (a b : Py) : Py :=
  if a.truthy then a else b

/-- Numeric view of a value: ints, floats and bools (True is 1) are numbers.
Used where the code does arithmetic on a fetched value. -/
def pyNum : Py → Option ℚ
  | .int n => some (n : ℚ)
  | .rat q => some q
  | .bool b => some (if b then 1 else 0)
  | _ => Option.none

/-- Is the value a dict or a list (Python isinstance(x, (dict, list)))? -/
def Py.isDictOrList : Py → Bool
  | .dict _ => true
  | .list _ => true
  | _ => false

/-- Python str() for the scalar shapes that occur as job statuses and ids;
container representations are abbreviated (statuses in the data are plain
strings, where this conversion is exact). -/
def pyStr : Py → String
  | .str s => s
  | .none => "None"
  | .bool true => "True"
  | .bool false => "False"
  | .int n => toString n
  | .rat q => toString q
  | .dict _ => "<dict>"
  | .list _ => "<list>"

/-! ### main.py, extractNodes: node classification, pole fields, POA height -/

/-- Source-tag precedence used by extractNodes in main.py for type fields. -/
def mainSourceTags : List String := ["-Imported", "button_added", "value", "auto_calced"]

/-- The two attribute names extractNodes consults for a node type. -/
def typeFields : List String := ["node_type", "pole_type"]

/-- Inner loop of the type scan: the first truthy value of
attributes.get(field, dict).get(tag) over the given tag order. -/
def firstTruthyTag (attributes : Py) (field : String) (tags : List String) : Option Py :=
  tags.findSome? (fun tag =>
    let v := (attributes.getD field (.dict [])).get tag
    if v.truthy then some v else Option.none)

/-- Outer loop of the node-type scan over the type fields: for each type
field the first truthy tagged value is taken, and the loop stops as soon as
the accumulated value differs from the string Unknown. -/
def extractNodeTypeGo (attributes : Py) (cur : Py) : List String → Py
  | [] => cur
  | f :: rest =>
    let cur2 := match firstTruthyTag attributes f mainSourceTags with
      | some v => v
      | Option.none => cur
    if !(pyEqStr cur2 "Unknown") then cur2 else extractNodeTypeGo attributes cur2 rest

/-- Node-type scan of extractNodes (main.py lines 266 to 274): node type
starts as the string Unknown. -/
def extractNodeType (attributes : Py) : Py :=
  extractNodeTypeGo attributes (.str "Unknown") typeFields

/-- extractNodes processes a node further only when its scanned type is the
string pole. -/
def isPoleMain (attributes : Py) : Bool :=
  pyEqStr (extractNodeType attributes) "pole"

/-- MR status extraction of extractNodes (main.py lines 292 to 304), shared
verbatim with MetricsRecorder determine mr status in the database module. -/
def determineMrStatus (attributes : Py) : String :=
  if attributes.has "proposed_pole_spec" then "PCO Required"
  else
    let mrState := (attributes.getD "mr_state" (.dict [])).getD "auto_calced" (.str "Unknown")
    let warningPresent := attributes.has "warning"
    if pyEqStr mrState "No MR" && !warningPresent then "No MR"
    else if pyEqStr mrState "MR Resolved" && !warningPresent then "Comm MR"
    else if pyEqStr mrState "MR Resolved" && warningPresent then "Electric MR"
    else "Unknown"

/-- Whole-feet plus remainder-inches conversion of a measured height in
inches (main.py lines 347, 348 and 372, 373): feet is int(h // 12) and
inches is int(h % 12); Python floor division and modulo give the floor of
h / 12 and a remainder in [0, 12), so int() truncation equals the floor. -/
def convertHeight (h : ℚ) : Int × Int :=
  (⌊h / 12⌋, ⌊h - 12 * ((⌊h / 12⌋ : Int) : ℚ)⌋)

/-- Trace filter of the wire scan (main.py lines 340 to 343): company is
Clearnetworx, proposed is truthy, trace type cable, cable type Fiber Optic
Com. -/
def wireTraceMatches (traceDataAll : Py) (traceId : Py) : Bool :=
  let traceData := match traceId with
    | .str s => traceDataAll.getD s (.dict [])
    | _ => .dict []
  pyEqStr (traceData.get "company") "Clearnetworx" &&
    (traceData.getD "proposed" (.bool false)).truthy &&
    pyEqStr (traceData.get "_trace_type") "cable" &&
    pyEqStr (traceData.get "cable_type") "Fiber Optic Com"

/-- Trace filter of the guying fallback scan (main.py lines 366 to 368):
company Clearnetworx, proposed truthy, trace type down guy. -/
def guyTraceMatches (traceDataAll : Py) (traceId : Py) : Bool :=
  let traceData := match traceId with
    | .str s => traceDataAll.getD s (.dict [])
    | _ => .dict []
  pyEqStr (traceData.get "company") "Clearnetworx" &&
    (traceData.getD "proposed" (.bool false)).truthy &&
    pyEqStr (traceData.get "_trace_type") "down_guy"

/-- Channel scan shared by the wire pass and the guying pass: for each entry
whose trace passes the filter, the measured height is taken and converted
when it is a number; a matching entry whose measured height is None does not
stop the scan (the break in the source sits under the not-None test).
Non-numeric heights would raise in Python and skip the node; they do not
occur in the modelled inputs. -/
def scanChannels (accept : Py → Bool) : List (String × Py) → Option (Int × Int)
  | [] => Option.none
  | (_, wireInfo) :: rest =>
    if accept (wireInfo.get "_trace") then
      match pyNum (wireInfo.get "_measured_height") with
      | some h => some (convertHeight h)
      | Option.none => scanChannels accept rest
    else scanChannels accept rest

/-- The first photo id in the photo map of a node whose association is the
string main (main.py lines 330, 331). -/
def findMainPhoto (photos : Py) : Option String :=
  match photos with
  | .dict m => (m.find? (fun p => pyEqStr (Py.get p.2 "association") "main")).map (·.1)
  | _ => Option.none

/-- POA height extraction of extractNodes (main.py lines 327 to 385): find
the first photo on the node whose association is main, look it up in the
job-level photo data, scan its wire channels against the fiber trace filter,
and fall back to its guying channels against the down-guy filter. -/
def extractPoaHeight (photoData traceDataAll nodeData : Py) : Option (Int × Int) :=
  match findMainPhoto (nodeData.getD "photos" (.dict [])) with
  | some pid =>
    if photoData.has pid then
      let pfd := (photoData.get pid).getD "photofirst_data" (.dict [])
      let wire := match pfd.getD "wire" (.dict []) with
        | .dict m => m
        | _ => []
      match scanChannels (wireTraceMatches traceDataAll) wire with
      | some h => some h
      | Option.none =>
        let guying := match pfd.getD "guying" (.dict []) with
          | .dict m => m
          | _ => []
        scanChannels (guyTraceMatches traceDataAll) guying
    else Option.none
  | Option.none => Option.none

/-- A canonical node point as appended by extractNodes (main.py lines 387 to
403), restricted to the fields the claims mention; latitude and longitude
are kept as the raw values, which the guard has checked are not None. -/
structure NodePoint where
  id : String
  lat : Py
  lng : Py
  mrStatus : String
  company : Py
  fldcompl : String
  poaHeight : Option (Int × Int)

/-- Per-node step of extractNodes: classify by the scanned type, process the
node only when it is a pole, skip it when latitude or longitude is None, and
otherwise emit the extracted point. -/
def extractNodePoint (photoData traceDataAll : Py) (nodeId : String) (nodeData : Py) :
    Option NodePoint :=
  let attributes := nodeData.getD "attributes" (.dict [])
  if isPoleMain attributes then
    let latitude := nodeData.get "latitude"
    let longitude := nodeData.get "longitude"
    match latitude, longitude with
    | .none, _ => Option.none
    | _, .none => Option.none
    | lat, lng =>
      let fldcomplValue := (attributes.getD "field_completed" (.dict [])).getD "value"
        (.str "Unknown")
      some
        { id := nodeId
          lat := lat
          lng := lng
          mrStatus := determineMrStatus attributes
          company := ((attributes.getD "pole_tag" (.dict [])).getD "-Imported"
            (.dict [])).getD "company" (.str "Unknown")
          fldcompl := if pyEqInt fldcomplValue 1 then "yes"
            else if pyEqInt fldcomplValue 2 then "no" else "Unknown"
          poaHeight := extractPoaHeight photoData traceDataAll nodeData }
  else Option.none

/-- extractNodes over the node map of a job: the list of node points kept
(nodes whose type scan is not pole, or whose latitude or longitude is None,
are skipped and produce nothing). -/
def extractNodes (nodes : List (String × Py)) (photoData traceDataAll : Py) :
    List NodePoint :=
  nodes.filterMap (fun p => extractNodePoint photoData traceDataAll p.1 p.2)

/-! ### database/metrics_recorder.py: pole tests and shape normalization -/

/-- Source-tag order used by the database MetricsRecorder for pole tests
(button added first, unlike main.py). -/
def dbSourceTags : List String := ["button_added", "-Imported", "value", "auto_calced"]

/-- Shape normalization applied to an attributes value that arrives as a
list: its first element when nonempty, else an empty dict (database
metrics recorder, is pole node and friends). -/
def normalizeAttributes (attributes : Py) : Py :=
  match attributes with
  | .list [] => .dict []
  | .list (a :: _) => a
  | a => a

/-- The dict-shaped core of the pole test: some configured type field and
source tag carry exactly the string pole. -/
def isPoleAttrs (attributes : Py) : Bool :=
  typeFields.any (fun tf => dbSourceTags.any (fun tag =>
    pyEqStr ((attributes.getD tf (.dict [])).get tag) "pole"))

/-- MetricsRecorder is pole node (database module, lines 446 to 461): a list
argument holds a pole when any dict-or-list element does; a dict argument is
a pole when, after normalizing a list-shaped attribute bag to its first
element, some configured type source is exactly the string pole; everything
else is not a pole.  The isinstance guard of the source drops list elements
on which the recursive call would answer false anyway, so it is kept as a
conjunction. -/
def isPoleNode : Py → Bool
  | .list items => items.attach.any (fun x => x.1.isDictOrList && isPoleNode x.1)
  | .dict m =>
    isPoleAttrs (normalizeAttributes (Py.getD (.dict m) "attributes" (.dict [])))
  | _ => false
decreasing_by
  have := List.sizeOf_lt_of_mem x.2
  simp only [Py.list.sizeOf_spec]
  omega

/-- MetricsRecorder get field completed (database module, lines 463 to 475):
on a list, truthy when any dict-or-list element resolves truthy; on a dict,
the stored value of field completed under the value tag, defaulting to
False.  The function returns the raw value; callers use its truthiness. -/
def getFieldCompleted : Py → Py
  | .list items =>
    .bool (items.attach.any (fun x => x.1.isDictOrList && (getFieldCompleted x.1).truthy))
  | .dict m =>
    (Py.getD (normalizeAttributes (Py.getD (.dict m) "attributes" (.dict [])))
      "field_completed" (.dict [])).getD "value" (.bool false)
  | _ => .bool false
decreasing_by
  have := List.sizeOf_lt_of_mem x.2
  simp only [Py.list.sizeOf_spec]
  omega

/-- MetricsRecorder get back office completed (database module, lines 477 to
489), same shape handling over the backoffice complete attribute. -/
def getBackOfficeCompleted : Py → Py
  | .list items =>
    .bool (items.attach.any (fun x =>
      x.1.isDictOrList && (getBackOfficeCompleted x.1).truthy))
  | .dict m =>
    (Py.getD (normalizeAttributes (Py.getD (.dict m) "attributes" (.dict [])))
      "backoffice_complete" (.dict [])).getD "value" (.bool false)
  | _ => .bool false
decreasing_by
  have := List.sizeOf_lt_of_mem x.2
  simp only [Py.list.sizeOf_spec]
  omega

/-- Metadata normalization of record job metrics (database module, lines 26
to 31): a list becomes its first element (or an empty dict when empty), a
dict stays, anything else becomes an empty dict. -/
def normalizeMetadata (metadata : Py) : Py :=
  match metadata with
  | .list [] => .dict []
  | .list (a :: _) => a
  | .dict m => .dict m
  | _ => .dict []

/-! ### Cascading company lookup and job utility resolution -/

/-- Step two of the cascade: the first direct child of pole tag that is a
dict containing the key company yields the stored company value (even a
falsy one, since the loop breaks before re-testing). -/
def firstChildCompany (poleTag : Py) : Option Py :=
  match poleTag with
  | .dict m => m.findSome? (fun kv =>
      match kv.2 with
      | .dict d => if (alget d "company").isSome then some (Py.get (.dict d) "company")
        else Option.none
      | _ => Option.none)
  | _ => Option.none

/-- Step three of the cascade: the loop over the company attribute leaves the
first truthy tagged value, or the value fetched for the last tag when none is
truthy. -/
def companyAttrScan (companyAttr : Py) : List String → Py
  | [] => .none
  | [s] => companyAttr.get s
  | s :: rest =>
    let c := companyAttr.get s
    if c.truthy then c else companyAttrScan companyAttr rest

/-- Cascading company lookup shared by record job metrics (database module,
lines 75 to 94) and the utility scan of BurndownCalculator update job
metrics (lines 116 to 135): pole tag Imported company or-else button added
company; when falsy, the first dict child of pole tag holding a company key;
when still falsy, the company attribute scanned in main source-tag order. -/
def cascadeCompany (attributes : Py) : Py :=
  let poleTag := attributes.getD "pole_tag" (.dict [])
  let c1 := pyOr ((poleTag.getD "-Imported" (.dict [])).get "company")
    ((poleTag.getD "button_added" (.dict [])).get "company")
  let c2 := if c1.truthy then c1 else
    match firstChildCompany poleTag with
    | some v => v
    | Option.none => c1
  if c2.truthy then c2 else companyAttrScan (attributes.getD "company" (.dict [])) mainSourceTags

/-- Increment the count of a company key, or append it with count one in
first-seen order, as a Python dict of counters does.  Company values in the
job payloads are JSON strings; non-string company values are not counted by
the model (the claims never exercise them). -/
def bumpCount (counts : List (String × Nat)) (k : String) : List (String × Nat) :=
  if counts.any (fun p => p.1 == k) then
    counts.map (fun p => if p.1 == k then (p.1, p.2 + 1) else p)
  else counts ++ [(k, 1)]

/-- Utility counting loop of record job metrics (database module, lines 69
to 99): for each dict node whose attributes are a dict, the cascading
company is counted when truthy and not the string Unknown. -/
def dbUtilityCounts (nodes : List Py) : List (String × Nat) :=
  nodes.foldl (fun counts nd =>
    match nd with
    | .dict _ =>
      let attributes := nd.getD "attributes" (.dict [])
      match attributes with
      | .dict _ =>
        let company := cascadeCompany attributes
        if company.truthy && !(pyEqStr company "Unknown") then
          match company with
          | .str s => bumpCount counts s
          | _ => counts
        else counts
      | _ => counts
    | _ => counts) []

/-- One comparison step of Python max with the count as key: a later entry
wins only with a strictly greater count, so the earliest maximal entry is
kept. -/
def maxStep (best : Option (String × Nat)) (p : String × Nat) : Option (String × Nat) :=
  match best with
  | Option.none => some p
  | some b => if p.2 > b.2 then some p else best

/-- Python max over counter items with the count as key: the first entry with
the greatest count. -/
def maxByCount (counts : List (String × Nat)) : Option String :=
  (counts.foldl maxStep Option.none).map (·.1)

/-- Job utility resolution of record job metrics (database module, lines 58
to 106): the metadata utility when truthy; otherwise, when the resolved value
still equals the string Unknown and some nodes yielded companies, the most
common company. -/
def dbResolveUtility (metadata : Py) (nodes : List Py) : Py :=
  let u1 := pyOr (metadata.get "utility") (.str "Unknown")
  if pyEqStr u1 "Unknown" then
    match maxByCount (dbUtilityCounts nodes) with
    | some s => .str s
    | Option.none => u1
  else u1

/-- Utility scan of BurndownCalculator update job metrics (lines 111 to
141): the cascading company of the first node for which it is truthy, else
the string Unknown; no metadata utility and no vote. -/
def bdResolveUtility (nodes : List Py) : Py :=
  match nodes.findSome? (fun nd =>
    let company := cascadeCompany (nd.getD "attributes" (.dict []))
    if company.truthy then some company else Option.none) with
  | some c => c
  | Option.none => .str "Unknown"

/-! ### burndown_calculator.py: pole counting, capacities, run rate -/

/-- Node-type scan of BurndownCalculator update job metrics (lines 170 to
179): the first truthy tagged value over the type fields, with the database
source-tag order; the outer loop breaks on any truthy value (no Unknown
sentinel here). -/
def bdNodeType (attributes : Py) : Option Py :=
  typeFields.findSome? (fun tf => firstTruthyTag attributes tf dbSourceTags)

/-- Is a node counted as a pole by the burndown aggregator?  The scan must
yield exactly the string pole; coordinates are never consulted. -/
def bdIsPole (nodeData : Py) : Bool :=
  match nodeData with
  | .dict _ =>
    match nodeData.getD "attributes" (.dict []) with
    | .dict am => match bdNodeType (.dict am) with
      | some t => pyEqStr t "pole"
      | Option.none => false
    | _ => false
  | _ => false

/-- Completion test of the burndown aggregator (lines 184 to 190): some done
source among button added, Imported, multi added equals Python True. -/
def bdIsCompleted (attributes : Py) : Bool :=
  ["button_added", "-Imported", "multi_added"].any (fun s =>
    match (attributes.getD "done" (.dict [])).get s with
    | .bool b => b
    | .int n => n == 1
    | .rat q => q == 1
    | _ => false)

/-- Pole count of update job metrics over the node map of a job. -/
def bdPoleCount (nodes : List (String × Py)) : Nat :=
  (nodes.filter (fun p => bdIsPole p.2)).length

/-- Completed-pole count of update job metrics: poles whose done attribute
is set under some completion source. -/
def bdCompletedCount (nodes : List (String × Py)) : Nat :=
  (nodes.filter (fun p =>
    bdIsPole p.2 && bdIsCompleted (Py.getD p.2 "attributes" (.dict [])))).length

/-- Utility-level running totals of the aggregator. -/
structure UtilityTotals where
  total_poles : Nat
  completed_poles : Nat

/-- Additive fold of one job into the running utility totals
(burndown_calculator lines 245, 246; identical for projects). -/
def updateUtilityTotals (m : UtilityTotals) (nodes : List (String × Py)) : UtilityTotals :=
  { total_poles := m.total_poles + bdPoleCount nodes
    completed_poles := m.completed_poles + bdCompletedCount nodes }

/-- Weekly back-office throughput constant (poles per week per user). -/
def BACK_OFFICE_RATE : ℚ := 100

/-- Weekly field throughput constant (poles per week per user). -/
def FIELD_RATE : ℚ := 80

/-- Daily back-office capacity per user (burndown_calculator line 49). -/
def back_office_capacity : ℚ := BACK_OFFICE_RATE / 7

/-- Daily field capacity per user (burndown_calculator line 50). -/
def field_capacity : ℚ := FIELD_RATE / 7

/-- Effective daily rate of update job metrics (lines 264 to 274): the
lower of the two pools, each the user count times its per-user daily
capacity. -/
def effectiveDailyRate (backOfficeUsers fieldUsers : Nat) : ℚ :=
  min ((backOfficeUsers : ℚ) * back_office_capacity) ((fieldUsers : ℚ) * field_capacity)

/-- Daily capacity of calculate project burndown (lines 356 to 361), the
same bottleneck formula. -/
def dailyCapacity (backOfficeUsers fieldUsers : Nat) : ℚ :=
  min ((backOfficeUsers : ℚ) * back_office_capacity) ((fieldUsers : ℚ) * field_capacity)

/-! ### Relational store: tables as lists of rows, SQL upsert as insert-or-replace -/

/-- The DO UPDATE branch of an upsert: a stored row with the conflicting
key becomes the new row, any other row is kept. -/
def replaceRow {ρ κ : Type} [DecidableEq κ] (key : ρ → κ) (r y : ρ) : ρ :=
  if key y = key r then r else y

/-- INSERT .. ON CONFLICT (key) DO UPDATE SET (all non-key columns): when a
row with the same key is present every such row is replaced by the new row,
otherwise the new row is appended. -/
def upsertBy {ρ κ : Type} [DecidableEq κ] (key : ρ → κ) (t : List ρ) (r : ρ) : List ρ :=
  if t.any (fun x => decide (key x = key r)) then t.map (replaceRow key r)
  else t ++ [r]

/-- A table holds the row r at its key: some row has the key, and every row
with the key equals r. -/
def absorbed {ρ κ : Type} (key : ρ → κ) (t : List ρ) (r : ρ) : Prop :=
  (∃ x ∈ t, key x = key r) ∧ ∀ x ∈ t, key x = key r → x = r

/-- Data row of the job metrics table (one row per job and run timestamp;
week-derived columns are deterministic in the timestamp and omitted).
Numeric totals are the counts the recorder computes; utility and status
are the stringified resolved values. -/
structure JobMetricsRow where
  job_id : String
  status : String
  utility : String
  total_poles : Nat
  completed_poles : Nat
  field_complete : Nat
  back_office_complete : Nat
  assigned_users : List String
  priority : Py
  target_completion_date : Py
  timestamp : Int

/-- Conflict key of job metrics: (job id, timestamp). -/
def jobKey (r : JobMetricsRow) : String × Int := (r.job_id, r.timestamp)

/-- Data row of the pole metrics table (one row per job, node and run
timestamp). -/
structure PoleMetricsRow where
  job_id : String
  node_id : String
  utility : String
  field_completed : Py
  field_completed_by : Option String
  field_completed_at : Option ℚ
  back_office_completed : Py
  annotated_by : Option String
  annotation_completed_at : Option ℚ
  pole_height : Py
  pole_class : Py
  mr_status : String
  poa_height : Py
  timestamp : Int

/-- Conflict key of pole metrics: (job id, node id, timestamp). -/
def poleKey (r : PoleMetricsRow) : String × String × Int := (r.job_id, r.node_id, r.timestamp)

/-- The two keyed tables the idempotent-replay claim speaks about. -/
structure MetricsTables where
  job_metrics : List JobMetricsRow
  pole_metrics : List PoleMetricsRow

/-! ### database/metrics_recorder.py: the record path -/

/-- Nodes normalization of record job metrics (database module, lines 33 to
38): a dict stays; a list becomes a dict keyed by the stringified index,
keeping only dict elements; anything else becomes empty. -/
def normalizeNodes (nodes : Py) : List (String × Py) :=
  match nodes with
  | .dict m => m
  | .list l => (l.enum.filterMap (fun p =>
      match p.2 with
      | .dict d => some (toString p.1, Py.dict d)
      | _ => Option.none))
  | _ => []

/-- Job id extraction of record job metrics (lines 47 to 54): the metadata
job id when truthy, else the top-level id; a falsy id raises and nothing is
written.  Identifiers in the payloads are JSON strings; non-string ids are
treated as absent. -/
def extractJobId (jobData metadata : Py) : Option String :=
  let j1 := metadata.get "job_id"
  let j2 := if j1.truthy then j1 else jobData.get "id"
  if j2.truthy then
    match j2 with
    | .str s => some s
    | _ => Option.none
  else Option.none

/-- Assigned-users column of the job row (lines 122, 123): the singleton of
the assigned OSP when truthy, else empty. -/
def assignedUsersOf (metadata : Py) : List String :=
  let u := metadata.get "assigned_OSP"
  if u.truthy then [pyStr u] else []

/-- The job metrics row built by record job metrics for one snapshot
(lines 108 to 153): pole and completion counts over the node values, the
resolved utility, and the metadata fields. -/
def mkJobRow (jobId : String) (metadata : Py) (nodes : List (String × Py)) (ts : Int) :
    JobMetricsRow :=
  let nodeVals := nodes.map (·.2)
  let fieldComplete := (nodeVals.filter
    (fun n => n.isDictOrList && (getFieldCompleted n).truthy)).length
  { job_id := jobId
    status := pyStr (metadata.getD "job_status" (.str "Unknown"))
    utility := pyStr (dbResolveUtility metadata nodeVals)
    total_poles := (nodeVals.filter (fun n => n.isDictOrList && isPoleNode n)).length
    completed_poles := fieldComplete
    field_complete := fieldComplete
    back_office_complete := (nodeVals.filter
      (fun n => n.isDictOrList && (getBackOfficeCompleted n).truthy)).length
    assigned_users := assignedUsersOf metadata
    priority := metadata.getD "priority" (.int 3)
    target_completion_date := metadata.get "target_completion_date"
    timestamp := ts }

/-- Editor attribution accumulated by get editor info (database module,
lines 536 to 579). -/
structure EditorInfo where
  field_completed_by : Option String
  field_completed_at : Option ℚ
  annotated_by : Option String
  annotation_completed_at : Option ℚ
  poa_height : Py

/-- Initial editor info: all fields None. -/
def emptyEditorInfo : EditorInfo :=
  { field_completed_by := Option.none
    field_completed_at := Option.none
    annotated_by := Option.none
    annotation_completed_at := Option.none
    poa_height := .none }

/-- First wire entry of a photo with a truthy measured height (lines 568 to
572); the raw stored value is kept. -/
def firstTruthyWireHeight (wireData : Py) : Option Py :=
  match wireData with
  | .dict m => m.findSome? (fun kv =>
      let h := Py.get kv.2 "_measured_height"
      if h.truthy then some h else Option.none)
  | _ => Option.none

/-- Python max over editor items keyed by the edit time (line 559): the
first entry with the strictly greatest numeric timestamp.  Editor ids are
dict keys, hence strings; timestamps in the payloads are numbers. -/
def maxEditor (editors : List (String × Py)) : Option (String × ℚ) :=
  editors.foldl (fun best p =>
    let t := (pyNum p.2).getD 0
    match best with
    | Option.none => some (p.1, t)
    | some b => if t > b.2 then some (p.1, t) else best) Option.none

/-- One photo step of get editor info: skip non-dict photo entries and
photos absent from the job-level photo data; otherwise attribute the most
recent editor to the field (main photo, also fetching the first truthy wire
height) or to annotation.  The edit time in milliseconds becomes seconds. -/
def editorStep (photoData : Py) (info : EditorInfo) (pid : String) (pinfo : Py) :
    EditorInfo :=
  match pinfo with
  | .dict _ =>
    if photoData.has pid then
      let pfd := (photoData.get pid).getD "photofirst_data" (.dict [])
      let editors := match pfd.getD "_editors" (.dict []) with
        | .dict m => m
        | _ => []
      match maxEditor editors with
      | some (eid, etime) =>
        let tsec := etime / 1000
        if pyEqStr (pinfo.get "association") "main" then
          let poa := match firstTruthyWireHeight (pfd.getD "wire" (.dict [])) with
            | some h => h
            | Option.none => info.poa_height
          { info with
              field_completed_by := some eid
              field_completed_at := some tsec
              poa_height := poa }
        else
          { info with annotated_by := some eid, annotation_completed_at := some tsec }
      | Option.none => info
    else info
  | _ => info

/-- Get editor info over the photo map of a node. -/
def getEditorInfo (nodePhotos photoData : Py) : EditorInfo :=
  match nodePhotos with
  | .dict m => m.foldl (fun info p => editorStep photoData info p.1 p.2) emptyEditorInfo
  | _ => emptyEditorInfo

/-- The pole metrics row written by record pole metrics for one pole node
(lines 405 to 437), with the utility overridden from the Imported pole tag
company (line 412) and the remaining fields from extract pole data. -/
def mkPoleRow (jobId nid : String) (nodeData photoData : Py) (ts : Int) : PoleMetricsRow :=
  let attributes := nodeData.getD "attributes" (.dict [])
  let info := getEditorInfo (nodeData.getD "photos" (.dict [])) photoData
  { job_id := jobId
    node_id := nid
    utility := pyStr (((attributes.getD "pole_tag" (.dict [])).getD "-Imported"
      (.dict [])).getD "company" (.str "Unknown"))
    field_completed := (attributes.getD "field_completed" (.dict [])).getD "value"
      (.bool false)
    field_completed_by := info.field_completed_by
    field_completed_at := info.field_completed_at
    back_office_completed := (attributes.getD "backoffice_complete" (.dict [])).getD
      "value" (.bool false)
    annotated_by := info.annotated_by
    annotation_completed_at := info.annotation_completed_at
    pole_height := (attributes.getD "pole_height" (.dict [])).get "-Imported"
    pole_class := (attributes.getD "pole_class" (.dict [])).get "-Imported"
    mr_status := determineMrStatus attributes
    poa_height := info.poa_height
    timestamp := ts }

/-- MetricsRecorder insert job metrics (database module, lines 581 to 613):
upsert of the job row on (job id, timestamp). -/
def insertJobMetrics (t : List JobMetricsRow) (r : JobMetricsRow) : List JobMetricsRow :=
  upsertBy jobKey t r

/-- MetricsRecorder record pole metrics (database module, lines 371 to 444):
non-pole nodes are skipped, each pole node is upserted on (job id, node id,
timestamp).  A list-shaped node passing the pole test would raise on the
attribute fetches and abort the statement in Python; such nodes do not occur
in the modelled snapshots. -/
def recordPoleMetrics (t : List PoleMetricsRow) (jobId : String)
    (nodes : List (String × Py)) (photoData : Py) (ts : Int) : List PoleMetricsRow :=
  nodes.foldl (fun acc p =>
    if isPoleNode p.2 then upsertBy poleKey acc (mkPoleRow jobId p.1 p.2 photoData ts)
    else acc) t

/-- The writes of record job metrics into its two uniquely keyed tables
(job metrics and pole metrics) for one snapshot at one timestamp; the
sibling writes (daily snapshots, status changes, user metrics) live in
other tables and are modelled separately. -/
def recordSnapshot (db : MetricsTables) (jobData : Py) (ts : Int) : MetricsTables :=
  let metadata := normalizeMetadata (jobData.getD "metadata" (.dict []))
  let nodes := normalizeNodes (jobData.getD "nodes" (.dict []))
  let photoData := Py.dict (normalizeNodes (jobData.getD "photos" (.dict [])))
  match extractJobId jobData metadata with
  | some jobId =>
    { job_metrics := insertJobMetrics db.job_metrics (mkJobRow jobId metadata nodes ts)
      pole_metrics := recordPoleMetrics db.pole_metrics jobId nodes photoData ts }
  | Option.none => db

/-! ### database/metrics_recorder.py: status-change detection and recording -/

/-- Data row of the status changes table (week and year columns, derived
from the timestamp, omitted). -/
structure StatusChangeRow where
  job_id : String
  previous_status : Option String
  new_status : String
  changed_at : Int
  changed_by : Option String
  duration_hours : Option ℚ

/-- Conflict key of status changes: (job id, changed at). -/
def scKey (r : StatusChangeRow) : String × Int := (r.job_id, r.changed_at)

/-- Data row of the status change log table. -/
structure StatusChangeLogRow where
  job_id : String
  entity_type : String
  entity_id : String
  field_name : String
  old_value : Option String
  new_value : Option String
  changed_at : Int
  changed_by : Option String
  change_reason : Option String

/-- Conflict key of the status change log: (entity type, entity id, field
name, changed at). -/
def logKey (r : StatusChangeLogRow) : String × String × String × Int :=
  (r.entity_type, r.entity_id, r.field_name, r.changed_at)

/-- The SELECT .. ORDER BY timestamp DESC LIMIT 1 of check status changes
(lines 228 to 238): the stored row for the job with the greatest timestamp
(on equal timestamps the order is unspecified in SQL; the model keeps the
earliest-positioned one). -/
def latestJobRow (t : List JobMetricsRow) (jid : String) : Option JobMetricsRow :=
  (t.filter (fun r => r.job_id == jid)).foldl (fun best r =>
    match best with
    | Option.none => some r
    | some b => if r.timestamp > b.timestamp then some r else best) Option.none

/-- MetricsRecorder record status change (lines 286 to 366): one upsert into
status changes, one into the status change log for the status field, and,
when changed by is truthy, one more log row for the OSP assignment. -/
def recordStatusChange (sc : List StatusChangeRow) (log : List StatusChangeLogRow)
    (jid : String) (previousStatus : Option String) (newStatus : String) (ts : Int)
    (changedBy : Option String) (durationHours : Option ℚ) :
    List StatusChangeRow × List StatusChangeLogRow :=
  let sc2 := upsertBy scKey sc
    { job_id := jid
      previous_status := previousStatus
      new_status := newStatus
      changed_at := ts
      changed_by := changedBy
      duration_hours := durationHours }
  let log2 := upsertBy logKey log
    { job_id := jid
      entity_type := "job"
      entity_id := jid
      field_name := "status"
      old_value := previousStatus
      new_value := some newStatus
      changed_at := ts
      changed_by := changedBy
      change_reason := changedBy.map (fun c => "OSP Assignment: " ++ c) }
  let log3 := match changedBy with
    | some c =>
      if c ≠ "" then
        upsertBy logKey log2
          { job_id := jid
            entity_type := "job"
            entity_id := jid
            field_name := "assigned_osp"
            old_value := Option.none
            new_value := some c
            changed_at := ts
            changed_by := some c
            change_reason := Option.none }
      else log2
    | Option.none => log2
  (sc2, log3)

/-- MetricsRecorder check status changes (lines 222 to 284): with no stored
row for the job, an originating record with null previous status and null
duration is written; with a stored row of a different status, a change
record whose duration is the elapsed seconds over 3600; with the same
status, nothing. -/
def checkStatusChanges (jobT : List JobMetricsRow) (sc : List StatusChangeRow)
    (log : List StatusChangeLogRow) (jid : String) (currentStatus : String) (ts : Int)
    (changedBy : Option String) : List StatusChangeRow × List StatusChangeLogRow :=
  match latestJobRow jobT jid with
  | Option.none =>
    recordStatusChange sc log jid Option.none currentStatus ts changedBy Option.none
  | some prev =>
    if prev.status ≠ currentStatus then
      recordStatusChange sc log jid (some prev.status) currentStatus ts changedBy
        (some (((ts - prev.timestamp : Int) : ℚ) / 3600))
    else (sc, log)

/-! ### Burndown persistence: the two update burndown metrics writers -/

/-- Calendar date of an epoch-second timestamp, as a day number (SQL DATE
truncation). -/
def dateOf (ts : Int) : Int := Int.fdiv ts 86400

/-- PostgreSQL cast of a float to integer (rounds; the claims never hit a
tie, where PostgreSQL rounds to even and this model rounds half up). -/
def pgRound (q : ℚ) : Int := round q

/-- Data row of the burndown metrics table. -/
structure BurndownRow where
  utility : String
  date : Int
  total_poles : Option Nat
  completed_poles : Option Nat
  run_rate : Option ℚ
  estimated_completion_date : Option Int
  actual_resources : Option Nat
  required_resources : Option Int

/-- Key of a burndown snapshot: (utility, date). -/
def bdKey (r : BurndownRow) : String × Int := (r.utility, r.date)

/-- update burndown metrics of the database module (database/metrics_recorder.py
lines 732 to 769): aggregate the job metrics rows of the utility on the day,
then plain INSERT of one burndown row, with no conflict clause; an aggregate
over no rows yields null sums (and a count of zero), and the insert still
appends a row. -/
def dbUpdateBurndownMetrics (jobT : List JobMetricsRow) (bT : List BurndownRow)
    (utility : String) (ts : Int) : List BurndownRow :=
  let rows := jobT.filter (fun r => r.utility == utility && dateOf r.timestamp == dateOf ts)
  let total : Option Nat := if rows.isEmpty then Option.none
    else some (rows.map (·.total_poles)).sum
  let completed : Option Nat := if rows.isEmpty then Option.none
    else some (rows.map (·.completed_poles)).sum
  let actual : Option Nat := some ((rows.map (·.assigned_users)).dedup.length)
  let runRate : Option ℚ := match total, completed with
    | some t, some c => if t = 0 then Option.none else some ((c : ℚ) / (t : ℚ))
    | _, _ => Option.none
  let est : Option Int := match total, completed with
    | some t, some c => if c = 0 then Option.none
      else some (dateOf ts + pgRound (((t : ℚ) - (c : ℚ)) / ((c : ℚ) / 30)))
    | _, _ => Option.none
  let required : Option Int := match total, completed with
    | some t, some c => some ⌈(((t : ℚ) - (c : ℚ)) / 30)⌉
    | _, _ => Option.none
  bT ++ [{ utility := utility
           date := dateOf ts
           total_poles := total
           completed_poles := completed
           run_rate := runRate
           estimated_completion_date := est
           actual_resources := actual
           required_resources := required }]

/-- update burndown metrics of the top-level module (metrics_recorder.py
lines 222 to 295): aggregate the pole metrics rows of the utility on the
day grouped by utility, then INSERT .. ON CONFLICT (utility, date) DO
UPDATE; with no matching rows the grouped select is empty and nothing is
written. -/
def topUpdateBurndownMetrics (poleT : List PoleMetricsRow) (bT : List BurndownRow)
    (utility : String) (ts : Int) : List BurndownRow :=
  let rows := poleT.filter (fun r => r.utility == utility && dateOf r.timestamp == dateOf ts)
  match rows with
  | [] => bT
  | r0 :: _ =>
    let total := rows.length
    let fieldDone := (rows.filter (fun r => r.field_completed.truthy)).length
    let backDone := (rows.filter (fun r => r.back_office_completed.truthy)).length
    let fieldRes := ((rows.filterMap (·.field_completed_by)).dedup).length
    let backRes := ((rows.filterMap (·.annotated_by)).dedup).length
    let tsMax := (rows.map (·.timestamp)).foldl max r0.timestamp
    let tsMin := (rows.map (·.timestamp)).foldl min r0.timestamp
    let doneEither := (rows.filter (fun r =>
      r.field_completed.truthy || r.back_office_completed.truthy)).length
    let dailyRate : ℚ := if ((tsMax - tsMin : Int) : ℚ) > 0 then
        (doneEither : ℚ) / (((tsMax - tsMin : Int) : ℚ) / 86400)
      else 0
    let completed := min fieldDone backDone
    let est : Option Int := if dailyRate > 0 then
        let d := pgRound (((total : ℚ) - (completed : ℚ)) / dailyRate)
        if d = 0 then Option.none else some (dateOf ts + d)
      else Option.none
    upsertBy bdKey bT
      { utility := utility
        date := dateOf ts
        total_poles := some total
        completed_poles := some completed
        run_rate := some (if dailyRate > 0 then dailyRate * 7 else 0)
        estimated_completion_date := est
        actual_resources := some (fieldRes + backRes)
        required_resources := some (if completed < total then
          ⌈(((total : ℚ) - (completed : ℚ)) / 30)⌉ else 0) }

/-! ### database/report_queries.py: weekly window selection -/

/-- Row selection of the daily metrics CTE of get weekly job metrics (lines
14 to 61): timestamp BETWEEN start AND end, which in SQL includes both
endpoints. -/
def weeklyJobMetricsRows (t : List JobMetricsRow) (startDate endDate : Int) :
    List JobMetricsRow :=
  t.filter (fun r => decide (startDate ≤ r.timestamp) && decide (r.timestamp ≤ endDate))

/-- Row selection of the status duration CTE of get weekly job metrics:
changed at BETWEEN start AND end. -/
def weeklyStatusChangeRows (t : List StatusChangeRow) (startDate endDate : Int) :
    List StatusChangeRow :=
  t.filter (fun r => decide (startDate ≤ r.changed_at) && decide (r.changed_at ≤ endDate))

/-- Row selection of the burndown data CTE of get utility progress (lines 63
to 103): date BETWEEN start AND end. -/
def utilityProgressBurndownRows (t : List BurndownRow) (startDate endDate : Int) :
    List BurndownRow :=
  t.filter (fun r => decide (startDate ≤ r.date) && decide (r.date ≤ endDate))

/-! ### Helper lemmas -/

/-- Any over an attached list equals any over the list itself. -/
theorem any_attach {α : Type} (l : List α) (p : α → Bool) :
    (l.attach.any fun x => p x.1) = l.any p := by
  rw [Bool.eq_iff_iff]
  simp only [List.any_eq_true, List.mem_attach, true_and, Subtype.exists]
  exact ⟨fun ⟨a, h, hp⟩ => ⟨a, h, hp⟩, fun ⟨a, h, hp⟩ => ⟨a, h, hp⟩⟩

/-- The pole test is false on values that are neither dicts nor lists, so the
isinstance guard in the list branch is redundant. -/
theorem isPoleNode_guard (x : Py) : (x.isDictOrList && isPoleNode x) = isPoleNode x := by
  cases x <;> simp [Py.isDictOrList, isPoleNode]

/-- The list branch of the pole test is an any over the elements. -/
theorem isPoleNode_list (items : List Py) :
    isPoleNode (.list items) = items.any isPoleNode := by
  rw [Bool.eq_iff_iff]
  simp only [isPoleNode, List.any_eq_true, List.mem_attach, true_and, Subtype.exists,
    isPoleNode_guard, exists_prop]

/-! ### C3: run-rate bottleneck -/

/-- C3: for back-office capacity B (back-office users times 100 poles/week)
and field capacity F (field users times 80 poles/week) the effective weekly
rate is min(B, F): seven times the effective daily rate of update job
metrics equals min(B, F), the project-burndown daily capacity agrees, and on
the spec example (three back-office users, one field user, so B = 300 and
F = 80) the effective daily rate is 80 poles per week over seven days, not
the 380 of a sum. -/
theorem C3_run_rate_bottleneck :
    ∀ backOfficeUsers fieldUsers : Nat,
      7 * effectiveDailyRate backOfficeUsers fieldUsers =
        min ((backOfficeUsers : ℚ) * 100) ((fieldUsers : ℚ) * 80) ∧
      dailyCapacity backOfficeUsers fieldUsers =
        effectiveDailyRate backOfficeUsers fieldUsers ∧
      effectiveDailyRate 3 1 = 80 / 7 := by
  intro b f
  refine ⟨?_, rfl, ?_⟩
  · unfold effectiveDailyRate back_office_capacity field_capacity BACK_OFFICE_RATE FIELD_RATE
    rw [mul_min_of_nonneg _ _ (by norm_num : (0 : ℚ) ≤ 7)]
    congr 1 <;> ring
  · unfold effectiveDailyRate back_office_capacity field_capacity BACK_OFFICE_RATE FIELD_RATE
    rw [min_eq_right (by norm_num)]
    norm_num

/-! ### C1: reference exclusion is absent from pole classification -/

/-- An attribute bag whose node type is pole under the Imported tag and
reference under the button added tag. -/
def poleThenReferenceAttrs : Py :=
  .dict [("node_type", .dict [("-Imported", .str "pole"), ("button_added", .str "reference")])]

/-- An attribute bag with the two tags swapped: reference under Imported,
pole under button added. -/
def referenceThenPoleAttrs : Py :=
  .dict [("node_type", .dict [("-Imported", .str "reference"), ("button_added", .str "pole")])]

/-- C1 counterexample: a node that yields pole under one configured source
tag and reference under another is classified pole by extractNodes (its type
scan stops at the first truthy value, pole under the Imported tag) and is a
pole for the database pole test as well, so reference does not take
precedence; with the tags swapped the same node is classified reference, so
the result does depend on tag order. -/
theorem C1_counterexample :
    extractNodeType poleThenReferenceAttrs = .str "pole" ∧
    Py.get (Py.getD poleThenReferenceAttrs "node_type" (.dict [])) "button_added" =
      .str "reference" ∧
    isPoleNode (.dict [("attributes", poleThenReferenceAttrs)]) = true ∧
    extractNodeType referenceThenPoleAttrs = .str "reference" := by
  refine ⟨rfl, rfl, ?_, rfl⟩
  simp only [isPoleNode]
  rfl

/-- C1 amended: the database pole test classifies a node as a pole exactly
when some configured type field and source tag yield the string pole, with
no exclusion for reference values; and the extractNodes type scan takes the
first truthy value in source order, so the pole-then-reference bag is
classified pole while the swapped bag is classified reference. -/
theorem C1_pole_classification :
    (∀ attributes : Py, isPoleAttrs attributes = true ↔
      ∃ tf ∈ typeFields, ∃ tag ∈ dbSourceTags,
        pyEqStr ((attributes.getD tf (.dict [])).get tag) "pole" = true) ∧
    extractNodeType poleThenReferenceAttrs = .str "pole" ∧
    extractNodeType referenceThenPoleAttrs = .str "reference" := by
  refine ⟨fun attributes => ?_, rfl, rfl⟩
  simp [isPoleAttrs, List.any_eq_true]

/-! ### C4: height conversion exactness -/

/-- Trace table with one matching fiber trace. -/
def negHeightTraces : Py :=
  .dict [("t1", .dict [("company", .str "Clearnetworx"), ("proposed", .bool true),
    ("_trace_type", .str "cable"), ("cable_type", .str "Fiber Optic Com")])]

/-- Photo data whose main photo carries one wire with measured height minus
five inches referencing the matching trace. -/
def negHeightPhotoData : Py :=
  .dict [("p1", .dict [("photofirst_data", .dict [("wire", .dict [("w1",
    .dict [("_trace", .str "t1"), ("_measured_height", .rat (-5))])])])])]

/-- A node whose only photo is the main photo. -/
def negHeightNode : Py :=
  .dict [("photos", .dict [("p1", .dict [("association", .str "main")])])]

/-- Evaluation of the conversion at a height whose floor decomposition is
given: feet f and inches i with f * 12 ≤ h < (f + 1) * 12 and remainder
exactly i. -/
theorem convertHeight_eq (h : ℚ) (f i : Int)
    (h1 : (f : ℚ) * 12 ≤ h) (h2 : h < ((f : ℚ) + 1) * 12)
    (h3 : h - 12 * (f : ℚ) = (i : ℚ)) :
    convertHeight h = (f, i) := by
  have hf : ⌊h / 12⌋ = f := by
    rw [Int.floor_eq_iff]
    constructor
    · rw [le_div_iff₀ (by norm_num : (0 : ℚ) < 12)]
      linarith
    · rw [div_lt_iff₀ (by norm_num : (0 : ℚ) < 12)]
      linarith
  simp only [convertHeight, hf, h3, Int.floor_intCast]

/-- C4 counterexample: a negative measured height is not nulled; minus five
inches converts by floor division to minus one foot, seven inches, so the
extractor yields a converted value, not null. -/
theorem C4_counterexample :
    (-5 : ℚ) < 0 ∧
    extractPoaHeight negHeightPhotoData negHeightTraces negHeightNode = some (-1, 7) := by
  refine ⟨by norm_num, ?_⟩
  have h : extractPoaHeight negHeightPhotoData negHeightTraces negHeightNode =
      some (convertHeight (-5)) := rfl
  rw [h, convertHeight_eq (-5) (-1) 7 (by norm_num) (by norm_num) (by norm_num)]

/-- C4 amended: conversion to whole feet plus remainder inches uses floor
division, so 132 inches gives (11, 0) and 130 inches gives (10, 10), and for
every rational height (negative ones included) the result is the exact floor
decomposition with a remainder in [0, 12); a null measured value yields no
height (a channel scan over wires all of whose measured heights are None
returns none), but a negative measured value converts instead of yielding
null. -/
theorem C4_height_conversion :
    convertHeight 132 = (11, 0) ∧
    convertHeight 130 = (10, 10) ∧
    (∀ h : ℚ, 0 ≤ (convertHeight h).2 ∧ (convertHeight h).2 < 12 ∧
      (((convertHeight h).1 * 12 + (convertHeight h).2 : Int) : ℚ) ≤ h ∧
      h < (((convertHeight h).1 * 12 + (convertHeight h).2 + 1 : Int) : ℚ)) ∧
    (∀ (accept : Py → Bool) (wires : List (String × Py)),
      (∀ w ∈ wires, Py.get w.2 "_measured_height" = .none) →
      scanChannels accept wires = Option.none) := by
  refine ⟨convertHeight_eq 132 11 0 (by norm_num) (by norm_num) (by norm_num),
    convertHeight_eq 130 10 10 (by norm_num) (by norm_num) (by norm_num), ?_, ?_⟩
  · intro h
    have hf1 : ((⌊h / 12⌋ : Int) : ℚ) ≤ h / 12 := Int.floor_le _
    have hf2 : h / 12 < (⌊h / 12⌋ : Int) + 1 := Int.lt_floor_add_one _
    have hr0 : (0 : ℚ) ≤ h - 12 * ((⌊h / 12⌋ : Int) : ℚ) := by linarith
    have hr12 : h - 12 * ((⌊h / 12⌋ : Int) : ℚ) < 12 := by linarith
    have hfl : ((⌊h - 12 * ((⌊h / 12⌋ : Int) : ℚ)⌋ : Int) : ℚ) ≤
        h - 12 * ((⌊h / 12⌋ : Int) : ℚ) := Int.floor_le _
    have hfu : h - 12 * ((⌊h / 12⌋ : Int) : ℚ) <
        (⌊h - 12 * ((⌊h / 12⌋ : Int) : ℚ)⌋ : Int) + 1 := Int.lt_floor_add_one _
    simp only [convertHeight]
    refine ⟨Int.floor_nonneg.mpr hr0, ?_, ?_, ?_⟩
    · exact_mod_cast Int.floor_lt.mpr (by push_cast; linarith)
    · push_cast
      linarith
    · push_cast
      linarith
  · intro accept wires hw
    induction wires with
    | nil => rfl
    | cons p rest ih =>
      obtain ⟨k, w⟩ := p
      have h1 : Py.get w "_measured_height" = .none :=
        hw (k, w) (List.mem_cons_self _ _)
      simp only [scanChannels, h1, pyNum]
      rw [ite_self]
      exact ih (fun w2 hw2 => hw w2 (List.mem_cons_of_mem _ hw2))

/-- C4 witness: the amended theorem applied to a one-wire channel list whose
measured height is absent - the scan yields none. -/
theorem C4_height_conversion_witness :
    scanChannels (fun _ => true) [("w1", Py.dict [("_trace", .str "t1")])] = Option.none :=
  C4_height_conversion.2.2.2 (fun _ => true) [("w1", Py.dict [("_trace", .str "t1")])]
    (fun w hw => by rw [List.mem_singleton.mp hw]; rfl)

/-! ### C9: shape normalization -/

/-- The field-completed test is falsy on values that are neither dicts nor
lists, so the isinstance guard in its list branch is redundant. -/
theorem getFieldCompleted_guard (x : Py) :
    (x.isDictOrList && (getFieldCompleted x).truthy) = (getFieldCompleted x).truthy := by
  cases x <;> simp [Py.isDictOrList, getFieldCompleted, Py.truthy]

/-- C9: a sequence where a single record is expected is normalized, not
refused: the pole test and the field-completed test treat a list node as any
element matches, and the metadata and attributes normalizations take the
first element of a list where a single record is expected. -/
theorem C9_shape_normalization :
    (∀ items : List Py, isPoleNode (.list items) = items.any isPoleNode) ∧
    (∀ items : List Py, (getFieldCompleted (.list items)).truthy =
      items.any (fun x => (getFieldCompleted x).truthy)) ∧
    (∀ (a : Py) (rest : List Py), normalizeMetadata (.list (a :: rest)) = a) ∧
    (∀ (a : Py) (rest : List Py), normalizeAttributes (.list (a :: rest)) = a) := by
  refine ⟨isPoleNode_list, ?_, fun a rest => rfl, fun a rest => rfl⟩
  intro items
  have hb : ∀ b : Bool, (Py.bool b).truthy = b := fun b => rfl
  rw [Bool.eq_iff_iff]
  simp only [getFieldCompleted, hb, List.any_eq_true, List.mem_attach, true_and,
    Subtype.exists, getFieldCompleted_guard, exists_prop]

/-! ### C10: weekly report window -/

/-- A stored job metrics row timestamped exactly at the window end. -/
def windowEdgeRow : JobMetricsRow :=
  { job_id := "J1"
    status := "Delivered"
    utility := "U"
    total_poles := 1
    completed_poles := 0
    field_complete := 0
    back_office_complete := 0
    assigned_users := []
    priority := .int 3
    target_completion_date := .none
    timestamp := 100 }

/-- C10 counterexample: the weekly query uses BETWEEN, which includes both
endpoints, so a row timestamped exactly at the window end is returned, where
a half-open window would exclude it. -/
theorem C10_counterexample :
    windowEdgeRow.timestamp = 100 ∧
    weeklyJobMetricsRows [windowEdgeRow] 0 100 = [windowEdgeRow] := by
  exact ⟨rfl, rfl⟩

/-- C10 amended: the weekly report queries return exactly the stored rows
whose timestamp lies in the closed interval [start, end] - BETWEEN includes
both endpoints - for job metrics, status changes and burndown rows alike. -/
theorem C10_weekly_window_closed :
    (∀ (t : List JobMetricsRow) (s e : Int) (r : JobMetricsRow),
      r ∈ weeklyJobMetricsRows t s e ↔ r ∈ t ∧ s ≤ r.timestamp ∧ r.timestamp ≤ e) ∧
    (∀ (t : List StatusChangeRow) (s e : Int) (r : StatusChangeRow),
      r ∈ weeklyStatusChangeRows t s e ↔ r ∈ t ∧ s ≤ r.changed_at ∧ r.changed_at ≤ e) ∧
    (∀ (t : List BurndownRow) (s e : Int) (r : BurndownRow),
      r ∈ utilityProgressBurndownRows t s e ↔ r ∈ t ∧ s ≤ r.date ∧ r.date ≤ e) := by
  refine ⟨fun t s e r => ?_, fun t s e r => ?_, fun t s e r => ?_⟩ <;>
    simp [weeklyJobMetricsRows, weeklyStatusChangeRows, utilityProgressBurndownRows,
      List.mem_filter, and_assoc]

/-! ### C6: missing-coordinate exclusion -/

/-- A pole-typed raw node with no latitude and no longitude. -/
def noCoordPoleNode : Py :=
  .dict [("attributes", .dict [("node_type", .dict [("-Imported", .str "pole")])])]

/-- C6 counterexample: a pole node with null latitude is absent from the
extractNodes output, yet the burndown aggregator counts it: its pole count
over the same single-node job is one, and folding the job into fresh utility
totals yields one total pole. -/
theorem C6_counterexample :
    Py.get noCoordPoleNode "latitude" = .none ∧
    extractNodes [("n1", noCoordPoleNode)] (.dict []) (.dict []) = [] ∧
    bdPoleCount [("n1", noCoordPoleNode)] = 1 ∧
    (updateUtilityTotals ⟨0, 0⟩ [("n1", noCoordPoleNode)]).total_poles = 1 := by
  exact ⟨rfl, rfl, rfl, rfl⟩

/-- C6 amended: a node with null latitude or longitude is absent from the
extractor output (extractNodePoint yields nothing for it); the burndown
aggregator, however, reads only the attributes of a node when counting
poles - two dict nodes with the same attributes entry are counted alike no
matter their coordinate fields - so such a node still contributes to
utility and project pole counts. -/
theorem C6_missing_coordinate :
    (∀ (photoData traceDataAll : Py) (nid : String) (nodeData : Py),
      Py.get nodeData "latitude" = .none ∨ Py.get nodeData "longitude" = .none →
      extractNodePoint photoData traceDataAll nid nodeData = Option.none) ∧
    (∀ m1 m2 : List (String × Py), alget m1 "attributes" = alget m2 "attributes" →
      bdIsPole (.dict m1) = bdIsPole (.dict m2)) := by
  constructor
  · intro pd td nid nd h
    simp only [extractNodePoint]
    cases hp : isPoleMain (Py.getD nd "attributes" (.dict []))
    · simp
    · simp only [if_true]
      rcases h with h | h
      · rw [h]
        cases Py.get nd "longitude" <;> rfl
      · rw [h]
        cases Py.get nd "latitude" <;> rfl
  · intro m1 m2 h
    simp only [bdIsPole, Py.getD, h]

/-- C6 witness: the amended theorem applied at the coordinate-free pole
node and at a pair of node bodies differing only in a latitude field. -/
theorem C6_missing_coordinate_witness :
    extractNodePoint (.dict []) (.dict []) "n1" noCoordPoleNode = Option.none ∧
    bdIsPole (.dict [("latitude", .none),
        ("attributes", .dict [("node_type", .dict [("-Imported", .str "pole")])])]) =
      bdIsPole (.dict [("attributes", .dict [("node_type", .dict [("-Imported",
        .str "pole")])])]) :=
  ⟨C6_missing_coordinate.1 (.dict []) (.dict []) "n1" noCoordPoleNode (Or.inl rfl),
    C6_missing_coordinate.2 _ _ rfl⟩

/-! ### C8: utility resolution, majority versus first match -/

/-- A raw node whose Imported pole tag carries the given company. -/
def nodeWithCompany (c : String) : Py :=
  .dict [("attributes", .dict [("pole_tag", .dict [("-Imported",
    .dict [("company", .str c)])])])]

/-- Three nodes: one company X first, then company Y twice. -/
def majorityNodes : List Py :=
  [nodeWithCompany "X", nodeWithCompany "Y", nodeWithCompany "Y"]

/-- C8 counterexample: with no job-level utility, the database recorder
resolves the majority company Y, but the burndown aggregator resolves X,
the company of the first node that yields one - so resolution is not by
majority vote everywhere. -/
theorem C8_counterexample :
    dbResolveUtility (.dict []) majorityNodes = .str "Y" ∧
    bdResolveUtility majorityNodes = .str "X" ∧ ("X" : String) ≠ "Y" := by
  exact ⟨rfl, rfl, by decide⟩

/-- Invariant of the Python max fold: starting from a seed entry, the fold
lands on an entry of the remaining list or the seed, with a count that
bounds the seed and every listed count. -/
theorem maxStep_foldl_spec (l : List (String × Nat)) (b : String × Nat) :
    ∃ kv, (kv = b ∨ kv ∈ l) ∧ l.foldl maxStep (some b) = some kv ∧
      b.2 ≤ kv.2 ∧ ∀ kv2 ∈ l, kv2.2 ≤ kv.2 := by
  induction l generalizing b with
  | nil => exact ⟨b, Or.inl rfl, rfl, le_refl _, by simp⟩
  | cons p l ih =>
    by_cases hp : p.2 > b.2
    · obtain ⟨kv, hkv, hfold, hge, hall⟩ := ih p
      refine ⟨kv, ?_, ?_, ?_, ?_⟩
      · rcases hkv with h | h
        · exact Or.inr (h ▸ List.mem_cons_self _ _)
        · exact Or.inr (List.mem_cons_of_mem _ h)
      · rw [List.foldl_cons, show maxStep (some b) p = some p from by simp [maxStep, hp]]
        exact hfold
      · omega
      · intro kv2 hkv2
        rcases List.mem_cons.mp hkv2 with h | h
        · rw [h]
          exact hge
        · exact hall kv2 h
    · obtain ⟨kv, hkv, hfold, hge, hall⟩ := ih b
      refine ⟨kv, ?_, ?_, hge, ?_⟩
      · rcases hkv with h | h
        · exact Or.inl h
        · exact Or.inr (List.mem_cons_of_mem _ h)
      · rw [List.foldl_cons, show maxStep (some b) p = some b from by simp [maxStep, hp]]
        exact hfold
      · intro kv2 hkv2
        rcases List.mem_cons.mp hkv2 with h | h
        · rw [h]
          omega
        · exact hall kv2 h

/-- The resolved maximum of a nonempty counter list is a listed entry whose
count bounds every listed count. -/
theorem maxByCount_spec (counts : List (String × Nat)) (hne : counts ≠ []) :
    ∃ kv ∈ counts, maxByCount counts = some kv.1 ∧ ∀ kv2 ∈ counts, kv2.2 ≤ kv.2 := by
  match counts, hne with
  | c :: l, _ =>
    obtain ⟨kv, hkv, hfold, hge, hall⟩ := maxStep_foldl_spec l c
    refine ⟨kv, ?_, ?_, ?_⟩
    · rcases hkv with h | h
      · exact h ▸ List.mem_cons_self _ _
      · exact List.mem_cons_of_mem _ h
    · rw [maxByCount, List.foldl_cons, show maxStep Option.none c = some c from rfl, hfold]
      rfl
    · intro kv2 hkv2
      rcases List.mem_cons.mp hkv2 with h | h
      · rw [h]
        exact hge
      · exact hall kv2 h

/-- C8 amended: with no truthy job-level utility and at least one counted
company, the database recorder resolves a company whose vote count bounds
every other count (majority vote, earliest maximal on ties); the burndown
aggregator instead resolves the cascading company of the first node for
which it is truthy. -/
theorem C8_utility_majority :
    (∀ (metadata : Py) (nodes : List Py),
      (Py.get metadata "utility").truthy = false →
      dbUtilityCounts nodes ≠ [] →
      ∃ kv ∈ dbUtilityCounts nodes,
        dbResolveUtility metadata nodes = .str kv.1 ∧
        ∀ kv2 ∈ dbUtilityCounts nodes, kv2.2 ≤ kv.2) ∧
    (∀ (nd : Py) (rest : List Py),
      (cascadeCompany (Py.getD nd "attributes" (.dict []))).truthy = true →
      bdResolveUtility (nd :: rest) = cascadeCompany (Py.getD nd "attributes" (.dict []))) := by
  constructor
  · intro metadata nodes hmu hne
    obtain ⟨kv, hkv, hmax, hall⟩ := maxByCount_spec _ hne
    refine ⟨kv, hkv, ?_, hall⟩
    unfold dbResolveUtility
    rw [show pyOr (Py.get metadata "utility") (.str "Unknown") = .str "Unknown" from by
      simp [pyOr, hmu], hmax]
    rfl
  · intro nd rest h
    unfold bdResolveUtility
    rw [List.findSome?_cons]
    simp only [h, if_true]

/-- C8 witness: the amended theorem applied at the three-node job - the
database resolver lands on a maximal-count company, and the burndown
resolver takes the first company. -/
theorem C8_utility_majority_witness :
    (∃ kv ∈ dbUtilityCounts majorityNodes,
      dbResolveUtility (.dict []) majorityNodes = .str kv.1 ∧
      ∀ kv2 ∈ dbUtilityCounts majorityNodes, kv2.2 ≤ kv.2) ∧
    bdResolveUtility (nodeWithCompany "X" :: [nodeWithCompany "Y", nodeWithCompany "Y"]) =
      cascadeCompany (Py.getD (nodeWithCompany "X") "attributes" (.dict [])) :=
  ⟨C8_utility_majority.1 (.dict []) majorityNodes rfl (by decide),
    C8_utility_majority.2 (nodeWithCompany "X") [nodeWithCompany "Y", nodeWithCompany "Y"] rfl⟩

/-! ### C5: status-change duration -/

/-- C5: when no row is stored for the job, check status changes writes an
originating record with null previous status and null duration; when the
newest stored row carries a different status, it writes a change record
whose previous status is that stored status and whose duration is the
elapsed seconds between the stored timestamp T0 and the observation
timestamp T1, divided by 3600 - that is, (T1 - T0) in hours. -/
theorem C5_status_change_duration :
    ∀ (jobT : List JobMetricsRow) (sc : List StatusChangeRow)
      (log : List StatusChangeLogRow) (jid currentStatus : String) (ts : Int)
      (changedBy : Option String),
      (latestJobRow jobT jid = Option.none →
        (checkStatusChanges jobT sc log jid currentStatus ts changedBy).1 =
          upsertBy scKey sc
            { job_id := jid
              previous_status := Option.none
              new_status := currentStatus
              changed_at := ts
              changed_by := changedBy
              duration_hours := Option.none }) ∧
      (∀ prev, latestJobRow jobT jid = some prev → prev.status ≠ currentStatus →
        (checkStatusChanges jobT sc log jid currentStatus ts changedBy).1 =
          upsertBy scKey sc
            { job_id := jid
              previous_status := some prev.status
              new_status := currentStatus
              changed_at := ts
              changed_by := changedBy
              duration_hours := some (((ts - prev.timestamp : Int) : ℚ) / 3600) }) := by
  intro jobT sc log jid cur ts cb
  constructor
  · intro h
    simp only [checkStatusChanges, h, recordStatusChange]
  · intro prev h hne
    simp only [checkStatusChanges, h, recordStatusChange]
    rw [if_pos hne]

/-- The stored row the C5 witness starts from: status Sent to PE at epoch
hour one. -/
def sentToPERow : JobMetricsRow :=
  { job_id := "J1"
    status := "Sent to PE"
    utility := "U"
    total_poles := 1
    completed_poles := 0
    field_complete := 0
    back_office_complete := 0
    assigned_users := []
    priority := .int 3
    target_completion_date := .none
    timestamp := 3600 }

/-- C5 witness: the theorem applied at a first observation (empty table)
and at a Sent to PE row followed by Delivered an hour later, with duration
one hour. -/
theorem C5_status_change_duration_witness :
    (checkStatusChanges [] [] [] "J1" "Pending Field Collection" 0 Option.none).1 =
      upsertBy scKey []
        { job_id := "J1"
          previous_status := Option.none
          new_status := "Pending Field Collection"
          changed_at := 0
          changed_by := Option.none
          duration_hours := Option.none } ∧
    (checkStatusChanges [sentToPERow] [] [] "J1" "Delivered" 7200 Option.none).1 =
      upsertBy scKey []
        { job_id := "J1"
          previous_status := some "Sent to PE"
          new_status := "Delivered"
          changed_at := 7200
          changed_by := Option.none
          duration_hours := some (((7200 - 3600 : Int) : ℚ) / 3600) } :=
  ⟨(C5_status_change_duration [] [] [] "J1" "Pending Field Collection" 0 Option.none).1 rfl,
    (C5_status_change_duration [sentToPERow] [] [] "J1" "Delivered" 7200 Option.none).2
      sentToPERow rfl (by decide)⟩

/-! ### Generic upsert lemmas -/

section UpsertLemmas

variable {ρ κ : Type} [DecidableEq κ]

theorem replaceRow_pos (key : ρ → κ) (r y : ρ) (h : key y = key r) :
    replaceRow key r y = r := if_pos h

theorem replaceRow_neg (key : ρ → κ) (r y : ρ) (h : key y ≠ key r) :
    replaceRow key r y = y := if_neg h

theorem key_replaceRow (key : ρ → κ) (r y : ρ) :
    key (replaceRow key r y) = key y := by
  unfold replaceRow
  by_cases h : key y = key r
  · rw [if_pos h, h]
  · rw [if_neg h]

theorem upsertBy_absorbed_self (key : ρ → κ) (t : List ρ) (r : ρ) :
    absorbed key (upsertBy key t r) r := by
  unfold upsertBy
  by_cases h : t.any (fun x => decide (key x = key r)) = true
  · obtain ⟨x, hx, hkx⟩ := List.any_eq_true.mp h
    rw [decide_eq_true_iff] at hkx
    rw [if_pos h]
    constructor
    · exact ⟨r, List.mem_map.mpr ⟨x, hx, replaceRow_pos key r x hkx⟩, rfl⟩
    · intro y hy hky
      obtain ⟨z, hz, hzy⟩ := List.mem_map.mp hy
      subst hzy
      by_cases hkz : key z = key r
      · exact replaceRow_pos key r z hkz
      · rw [key_replaceRow key r z] at hky
        exact absurd hky hkz
  · rw [if_neg h]
    constructor
    · exact ⟨r, List.mem_append_right _ (List.mem_singleton.mpr rfl), rfl⟩
    · intro y hy hky
      rcases List.mem_append.mp hy with hyt | hyr
      · have hfalse := List.any_eq_false.mp (Bool.of_not_eq_true h) y hyt
        rw [decide_eq_true_iff] at hfalse
        exact absurd hky hfalse
      · exact List.mem_singleton.mp hyr

theorem upsertBy_absorbed_other (key : ρ → κ) (t : List ρ) (r s : ρ)
    (hne : key s ≠ key r) (h : absorbed key t r) :
    absorbed key (upsertBy key t s) r := by
  obtain ⟨⟨x, hx, hkx⟩, hall⟩ := h
  unfold upsertBy
  by_cases hp : t.any (fun y => decide (key y = key s)) = true
  · rw [if_pos hp]
    constructor
    · refine ⟨replaceRow key s x, List.mem_map.mpr ⟨x, hx, rfl⟩, ?_⟩
      rw [key_replaceRow key s x, hkx]
    · intro y hy hky
      obtain ⟨z, hz, hzy⟩ := List.mem_map.mp hy
      subst hzy
      rw [key_replaceRow key s z] at hky
      rw [replaceRow_neg key s z (fun hc => hne (hc ▸ hky))]
      exact hall z hz hky
  · rw [if_neg hp]
    constructor
    · exact ⟨x, List.mem_append_left _ hx, hkx⟩
    · intro y hy hky
      rcases List.mem_append.mp hy with hyt | hyr
      · exact hall y hyt hky
      · rw [List.mem_singleton.mp hyr] at hky
        exact absurd hky hne

theorem upsertBy_of_absorbed (key : ρ → κ) (t : List ρ) (r : ρ)
    (h : absorbed key t r) : upsertBy key t r = t := by
  obtain ⟨⟨x, hx, hkx⟩, hall⟩ := h
  have hany : t.any (fun y => decide (key y = key r)) = true :=
    List.any_eq_true.mpr ⟨x, hx, decide_eq_true hkx⟩
  unfold upsertBy
  rw [if_pos hany]
  have hid : ∀ y ∈ t, replaceRow key r y = y := by
    intro y hy
    by_cases hky : key y = key r
    · rw [replaceRow_pos key r y hky, hall y hy hky]
    · exact replaceRow_neg key r y hky
  calc t.map (replaceRow key r) = t.map id := List.map_congr_left hid
    _ = t := List.map_id t

theorem absorbed_foldl (key : ρ → κ) (ws : List ρ) (t : List ρ) (r : ρ)
    (h : absorbed key t r) (hws : ∀ s ∈ ws, key s ≠ key r) :
    absorbed key (ws.foldl (upsertBy key) t) r := by
  induction ws generalizing t with
  | nil => exact h
  | cons s ws ih =>
    exact ih (upsertBy key t s)
      (upsertBy_absorbed_other key t r s (hws s (List.mem_cons_self _ _)) h)
      (fun s2 hs2 => hws s2 (List.mem_cons_of_mem _ hs2))

theorem foldl_upsertBy_idem (key : ρ → κ) (ws : List ρ) (t : List ρ)
    (h : (ws.map key).Nodup) :
    ws.foldl (upsertBy key) (ws.foldl (upsertBy key) t) = ws.foldl (upsertBy key) t := by
  induction ws generalizing t with
  | nil => rfl
  | cons r ws ih =>
    simp only [List.map_cons, List.nodup_cons, List.mem_map] at h
    obtain ⟨hr, hws⟩ := h
    simp only [List.foldl_cons]
    have habs : absorbed key (ws.foldl (upsertBy key) (upsertBy key t r)) r :=
      absorbed_foldl key ws (upsertBy key t r) r (upsertBy_absorbed_self key t r)
        (fun s hs heq => hr ⟨s, hs, heq⟩)
    rw [upsertBy_of_absorbed key _ r habs]
    exact ih (upsertBy key t r) hws

theorem upsertBy_keys_nodup (key : ρ → κ) (t : List ρ) (r : ρ)
    (h : (t.map key).Nodup) : ((upsertBy key t r).map key).Nodup := by
  unfold upsertBy
  by_cases hp : t.any (fun y => decide (key y = key r)) = true
  · rw [if_pos hp, List.map_map]
    have : t.map (key ∘ replaceRow key r) = t.map key :=
      List.map_congr_left (fun y _ => key_replaceRow key r y)
    rw [this]
    exact h
  · rw [if_neg hp, List.map_append]
    rw [List.nodup_append]
    refine ⟨h, List.nodup_singleton _, ?_⟩
    intro a ha hb
    rw [List.map_singleton, List.mem_singleton] at hb
    obtain ⟨y, hy, hky⟩ := List.mem_map.mp ha
    have hfalse := List.any_eq_false.mp (Bool.of_not_eq_true hp) y hy
    rw [decide_eq_true_iff] at hfalse
    exact hfalse (hky.trans hb)

theorem foldl_upsertBy_keys_nodup (key : ρ → κ) (ws : List ρ) (t : List ρ)
    (h : (t.map key).Nodup) : ((ws.foldl (upsertBy key) t).map key).Nodup := by
  induction ws generalizing t with
  | nil => exact h
  | cons r ws ih => exact ih _ (upsertBy_keys_nodup key t r h)

end UpsertLemmas

/-! ### C7: burndown uniqueness per (utility, date) -/

/-- A stored job metrics row for utility U on day zero. -/
def c7JobRow : JobMetricsRow :=
  { job_id := "J1"
    status := "Delivered"
    utility := "U"
    total_poles := 10
    completed_poles := 5
    field_complete := 5
    back_office_complete := 5
    assigned_users := []
    priority := .int 3
    target_completion_date := .none
    timestamp := 0 }

/-- C7 counterexample: running the database-module burndown writer twice for
the same utility and timestamp leaves two stored rows with the key (U, day
zero), not one - its INSERT has no conflict clause, so the second write
appends instead of replacing. -/
theorem C7_counterexample :
    ((dbUpdateBurndownMetrics [c7JobRow]
        (dbUpdateBurndownMetrics [c7JobRow] [] "U" 0) "U" 0).filter
      (fun r => decide (bdKey r = ("U", 0)))).length = 2 := by
  rfl

/-- C7 amended: the top-level burndown writer upserts on (utility, date) and
so preserves key uniqueness, but the database-module burndown writer always
appends one row regardless of an existing row with the same (utility, date)
key, so replaying a job through it duplicates burndown keys. -/
theorem C7_burndown_upsert :
    (∀ (jobT : List JobMetricsRow) (bT : List BurndownRow) (utility : String) (ts : Int),
      (dbUpdateBurndownMetrics jobT bT utility ts).length = bT.length + 1) ∧
    (∀ (poleT : List PoleMetricsRow) (bT : List BurndownRow) (utility : String) (ts : Int),
      (bT.map bdKey).Nodup →
      ((topUpdateBurndownMetrics poleT bT utility ts).map bdKey).Nodup) := by
  constructor
  · intro jobT bT utility ts
    simp [dbUpdateBurndownMetrics]
  · intro poleT bT utility ts h
    unfold topUpdateBurndownMetrics
    cases poleT.filter (fun r => r.utility == utility && dateOf r.timestamp == dateOf ts) with
    | nil => exact h
    | cons r0 rest => exact upsertBy_keys_nodup bdKey bT _ h

/-- C7 witness: the amended theorem applied at the one-row table - the
database-module writer grows the table from one row to two, and the
top-level writer keeps the empty table's keys duplicate-free. -/
theorem C7_burndown_upsert_witness :
    (dbUpdateBurndownMetrics [c7JobRow]
        (dbUpdateBurndownMetrics [c7JobRow] [] "U" 0) "U" 0).length =
      (dbUpdateBurndownMetrics [c7JobRow] [] "U" 0).length + 1 ∧
    ((topUpdateBurndownMetrics [] [] "U" 0).map bdKey).Nodup :=
  ⟨C7_burndown_upsert.1 [c7JobRow] (dbUpdateBurndownMetrics [c7JobRow] [] "U" 0) "U" 0,
    C7_burndown_upsert.2 [] [] "U" 0 List.nodup_nil⟩

/-! ### C2: idempotent replay of the record path -/

/-- The sequence of pole rows record pole metrics writes for one snapshot:
one upsert per pole node, in node order. -/
def poleWrites (jobId : String) (nodes : List (String × Py)) (photoData : Py) (ts : Int) :
    List PoleMetricsRow :=
  nodes.filterMap (fun p =>
    if isPoleNode p.2 then some (mkPoleRow jobId p.1 p.2 photoData ts) else Option.none)

/-- Record pole metrics is the fold of its write sequence. -/
theorem recordPoleMetrics_eq_foldl (jobId : String) (photoData : Py) (ts : Int) :
    ∀ (nodes : List (String × Py)) (t : List PoleMetricsRow),
      recordPoleMetrics t jobId nodes photoData ts =
        (poleWrites jobId nodes photoData ts).foldl (upsertBy poleKey) t := by
  intro nodes
  induction nodes with
  | nil => intro t; rfl
  | cons p rest ih =>
    intro t
    by_cases hp : isPoleNode p.2 = true
    · simp only [recordPoleMetrics, poleWrites, List.filterMap_cons, hp, if_true,
        List.foldl_cons]
      exact ih (upsertBy poleKey t (mkPoleRow jobId p.1 p.2 photoData ts))
    · simp only [recordPoleMetrics, poleWrites, List.filterMap_cons, hp, if_false,
        List.foldl_cons, Bool.false_eq_true]
      exact ih t

/-- Every key in the write sequence takes its node id from the node list. -/
theorem mem_poleWrites_key (jobId : String) (nodes : List (String × Py)) (photoData : Py)
    (ts : Int) :
    ∀ k ∈ (poleWrites jobId nodes photoData ts).map poleKey, k.2.1 ∈ nodes.map (·.1) := by
  intro k hk
  obtain ⟨q, hq, hkq⟩ := List.mem_map.mp hk
  obtain ⟨p, hp, hpq⟩ := List.mem_filterMap.mp hq
  by_cases hpole : isPoleNode p.2 = true
  · rw [if_pos hpole] at hpq
    obtain rfl : mkPoleRow jobId p.1 p.2 photoData ts = q := Option.some.inj hpq
    rw [← hkq]
    exact List.mem_map.mpr ⟨p, hp, rfl⟩
  · rw [if_neg hpole] at hpq
    exact absurd hpq (Option.noConfusion)

/-- Distinct node ids give distinct keys in the write sequence. -/
theorem poleWrites_keys_nodup (jobId : String) (nodes : List (String × Py)) (photoData : Py)
    (ts : Int) (hn : (nodes.map (·.1)).Nodup) :
    ((poleWrites jobId nodes photoData ts).map poleKey).Nodup := by
  induction nodes with
  | nil => simp [poleWrites]
  | cons p rest ih =>
    simp only [List.map_cons, List.nodup_cons] at hn
    obtain ⟨hp1, hrest⟩ := hn
    by_cases hp : isPoleNode p.2 = true
    · simp only [poleWrites, List.filterMap_cons, hp, if_true, List.map_cons]
      rw [List.nodup_cons]
      refine ⟨?_, ih hrest⟩
      intro hmem
      exact hp1 (mem_poleWrites_key jobId rest photoData ts _ hmem)
    · simp only [poleWrites, List.filterMap_cons, hp, if_false, Bool.false_eq_true]
      exact ih hrest

/-- C2: replaying the identical job snapshot at the same timestamp through
the record path is a no-op on the two uniquely keyed tables - the job row is
upserted on (job id, timestamp) and each pole row on (job id, node id,
timestamp), so the second write replaces rather than appends - and key
uniqueness of both tables is preserved, so each key holds exactly one row.
The node ids of a snapshot are dict keys and hence distinct. -/
theorem C2_idempotent_replay :
    ∀ (db : MetricsTables) (jobData : Py) (ts : Int),
      (db.job_metrics.map jobKey).Nodup →
      (db.pole_metrics.map poleKey).Nodup →
      ((normalizeNodes (jobData.getD "nodes" (.dict []))).map (·.1)).Nodup →
      recordSnapshot (recordSnapshot db jobData ts) jobData ts =
        recordSnapshot db jobData ts ∧
      ((recordSnapshot db jobData ts).job_metrics.map jobKey).Nodup ∧
      ((recordSnapshot db jobData ts).pole_metrics.map poleKey).Nodup := by
  intro db jobData ts hj hp hn
  simp only [recordSnapshot]
  cases hid : extractJobId jobData (normalizeMetadata (jobData.getD "metadata" (.dict [])))
    with
  | none => exact ⟨rfl, hj, hp⟩
  | some jobId =>
    dsimp only
    refine ⟨?_, ?_, ?_⟩
    · rw [MetricsTables.mk.injEq]
      constructor
      · exact upsertBy_of_absorbed jobKey _ _ (upsertBy_absorbed_self jobKey _ _)
      · rw [recordPoleMetrics_eq_foldl, recordPoleMetrics_eq_foldl]
        exact foldl_upsertBy_idem poleKey _ _ (poleWrites_keys_nodup _ _ _ _ hn)
    · exact upsertBy_keys_nodup jobKey _ _ hj
    · rw [recordPoleMetrics_eq_foldl]
      exact foldl_upsertBy_keys_nodup poleKey _ _ hp

/-- A one-pole job snapshot for the C2 witness. -/
def replayJobData : Py :=
  .dict [("id", .str "J1"),
    ("metadata", .dict [("job_id", .str "J1"), ("job_status", .str "Delivered")]),
    ("nodes", .dict [("n1", .dict [("attributes",
      .dict [("node_type", .dict [("-Imported", .str "pole")])])])]),
    ("photos", .dict [])]

/-- C2 witness: the theorem applied to the empty store and the one-pole
snapshot at timestamp zero. -/
theorem C2_idempotent_replay_witness :
    recordSnapshot (recordSnapshot ⟨[], []⟩ replayJobData 0) replayJobData 0 =
      recordSnapshot ⟨[], []⟩ replayJobData 0 ∧
    ((recordSnapshot ⟨[], []⟩ replayJobData 0).job_metrics.map jobKey).Nodup ∧
    ((recordSnapshot ⟨[], []⟩ replayJobData 0).pole_metrics.map poleKey).Nodup :=
  C2_idempotent_replay ⟨[], []⟩ replayJobData 0 (by simp) (by simp) (by decide)

end RevEng
